import Mathlib

/-!
Verification of the dead-file finder (`undead`): a shallow embedding of the
import-resolution, entrypoint-classification and reporting pipeline of
`src/main.rs` and `src/printer.rs`, with theorems settling the specification
claims about it.

Strings are modelled as lists of characters; filesystem paths appear in two
faithful views: the character-level string view (used by
`render_as_import_string`, which the Rust code applies to the lossy string
form of a path) and the segment-level view (used by `Path::parent` /
`Path::join` in the import resolver).
-/

namespace Undead

/-- A Rust string, modelled as its list of characters. -/
abbrev Str := List Char

/-- MAIN_SEPARATOR_STR on the target platform, a single character. -/
def SEP : Char := '/'

/-- PYTHON_EXTENSION, the source-file suffix (src/main.rs line 91). -/
def PYTHON_EXTENSION : Str := ".py".toList

/-- PYTHON_INIT_FILE, the package-initializer filename (src/main.rs line 90). -/
def PYTHON_INIT_FILE : Str := "__init__.py".toList

/-- Model of str::strip_prefix: returns the remainder when the first argument
is a prefix of the second, none otherwise. -/
def dropPre (p s : Str) : Option Str :=
  match p, s with
  | [], s => some s
  | _ :: _, [] => none
  | a :: p, b :: s => if a = b then dropPre p s else none

/-- Model of str::strip_suffix, via strip_prefix on the reversals. -/
def dropSuf (p s : Str) : Option Str :=
  (dropPre p.reverse s.reverse).map List.reverse

/-- Model of render_as_import_string (src/main.rs lines 199-209): strip the
root-plus-separator string as a prefix when present, strip the source-file
suffix when present, and replace every separator character by a dot. -/
def render_as_import_string (path python_root : Str) : Str :=
  let pre := python_root ++ [SEP]
  let r1 := (dropPre pre path).getD path
  let r2 := (dropSuf PYTHON_EXTENSION r1).getD r1
  r2.map (fun c => if c = SEP then '.' else c)

/-- Model of the module-to-path translation in main (src/main.rs lines 55 and
66): replace every dot by the separator, append the source-file suffix, and
join the result under the project root. -/
def to_path (module python_root : Str) : Str :=
  python_root ++ [SEP] ++ (module.map (fun c => if c = '.' then SEP else c) ++ PYTHON_EXTENSION)

theorem dropPre_append (p s : Str) : dropPre p (p ++ s) = some s := by
  induction p with
  | nil => rfl
  | cons a p ih => simp [dropPre, ih]

theorem dropSuf_append (q s : Str) : dropSuf q (s ++ q) = some s := by
  simp [dropSuf, List.reverse_append, dropPre_append]

theorem dropPre_eq_none_iff (p s : Str) : dropPre p s = none ↔ ¬ p <+: s := by
  induction p generalizing s with
  | nil => simp [dropPre]
  | cons a p ih =>
    cases s with
    | nil => simp [dropPre]
    | cons b s =>
      by_cases hab : a = b
      · subst hab
        simp [dropPre, ih, List.cons_prefix_cons]
      · simp [dropPre, hab, List.cons_prefix_cons]

/-- Claim C7: for every path of the form root ++ separator ++ stem ++ suffix
whose stem contains no dot character, translating the path to its dotted form
with render_as_import_string and back with the module-to-path translation of
main yields exactly the original path. -/
theorem render_to_path_roundtrip (python_root stem : Str) (hdot : '.' ∉ stem) :
    to_path (render_as_import_string (python_root ++ [SEP] ++ (stem ++ PYTHON_EXTENSION)) python_root) python_root
      = python_root ++ [SEP] ++ (stem ++ PYTHON_EXTENSION) := by
  have h1 : dropPre (python_root ++ [SEP]) (python_root ++ [SEP] ++ (stem ++ PYTHON_EXTENSION))
      = some (stem ++ PYTHON_EXTENSION) := dropPre_append _ _
  have h2 : dropSuf PYTHON_EXTENSION (stem ++ PYTHON_EXTENSION) = some stem := dropSuf_append _ _
  unfold render_as_import_string to_path
  simp only [h1, Option.getD_some, h2, List.map_map]
  have hmap : stem.map ((fun c => if c = '.' then SEP else c) ∘ (fun c => if c = SEP then '.' else c)) = stem.map id := by
    apply List.map_congr_left
    intro c hc
    by_cases hsep : c = SEP
    · subst hsep
      simp
    · have hdotc : c ≠ '.' := fun h => hdot (h ▸ hc)
      simp [hsep, hdotc]
  rw [hmap, List.map_id]

theorem render_to_path_roundtrip_witness :
    ('.' ∉ "a/b".toList)
      ∧ to_path (render_as_import_string ("/r".toList ++ [SEP] ++ ("a/b".toList ++ PYTHON_EXTENSION)) "/r".toList) "/r".toList
        = "/r".toList ++ [SEP] ++ ("a/b".toList ++ PYTHON_EXTENSION) :=
  ⟨by decide, render_to_path_roundtrip "/r".toList "a/b".toList (by decide)⟩

/-- Claim C10: render_as_import_string is a total function, and on any path
whose string form does not begin with the root followed by the separator the
root prefix is simply not stripped: the result is the whole path, minus the
source-file suffix when present, with separators replaced by dots. -/
theorem render_total_outside_root (path python_root : Str)
    (h : ¬ (python_root ++ [SEP]) <+: path) :
    render_as_import_string path python_root
      = ((dropSuf PYTHON_EXTENSION path).getD path).map (fun c => if c = SEP then '.' else c) := by
  unfold render_as_import_string
  simp only [(dropPre_eq_none_iff (python_root ++ [SEP]) path).mpr h, Option.getD_none]

theorem render_total_outside_root_witness :
    (¬ ("/r".toList ++ [SEP]) <+: "/x/a.py".toList)
      ∧ render_as_import_string "/x/a.py".toList "/r".toList
        = ((dropSuf PYTHON_EXTENSION "/x/a.py".toList).getD "/x/a.py".toList).map (fun c => if c = SEP then '.' else c) :=
  ⟨by decide, render_total_outside_root "/x/a.py".toList "/r".toList (by decide)⟩

/-- An absolute filesystem path in the segment view: the list of components
below the filesystem root, so the root itself is the empty list. -/
abbrev FsPath := List Str

/-- Model of Path::parent on absolute paths: none at the filesystem root,
otherwise the path with its last component removed. -/
def parent (p : FsPath) : Option FsPath :=
  match p with
  | [] => none
  | _ :: _ => some p.dropLast

/-- The ascent loop of from_import_from (src/main.rs lines 161-163): take the
parent n times; none models the panic of unwrapping a missing parent. -/
def ascend : Nat → FsPath → Option FsPath
  | 0, p => some p
  | n + 1, p =>
    match parent p with
    | some q => ascend n q
    | none => none

/-- The string form of a segment-view path, as Path::to_string_lossy yields
it: a separator before every component, and a bare separator at the root. -/
def pathStr (p : FsPath) : Str :=
  match p with
  | [] => [SEP]
  | _ :: _ => p.foldl (fun acc seg => acc ++ SEP :: seg) []

/-- Splitting a string on a character: the component list that Path::join
produces from a dotted name whose dots were replaced by separators. -/
def splitOnChar (c : Char) : Str → List Str
  | [] => [[]]
  | x :: xs =>
    match splitOnChar c xs with
    | [] => [[x]]
    | h :: t => if x = c then [] :: h :: t else (x :: h) :: t

/-- The Import enum of src/main.rs lines 125-129: a resolved import, either a
module or a package, carrying its dotted name. -/
inductive Import
  | Module (dotted : Str)
  | Package (dotted : Str)
deriving DecidableEq

/-- Model of resolve_imports (src/main.rs lines 93-105): modules are kept as
they are; a package has PYTHON_INIT_FILE appended by push_str before
insertion. -/
def resolve_imports : List Import → List Str
  | [] => []
  | .Module m :: rest => m :: resolve_imports rest
  | .Package p :: rest => (p ++ PYTHON_INIT_FILE) :: resolve_imports rest

/-- The base-directory computation of Import::from_import_from (src/main.rs
lines 152-170): level 0 or absent yields the project root; level n > 0
ascends n times from the importing file's path. -/
def base_import_path (level : Option Nat) (current_file_path python_root : FsPath) : Option FsPath :=
  match level with
  | some l => if l = 0 then some python_root else ascend l current_file_path
  | none => some python_root

/-- Model of Import::from_import (src/main.rs lines 131-145): each dotted
name is joined under the project root; a directory is a Package, anything
else a Module, the dotted name kept verbatim. -/
def from_import (is_dir : FsPath → Bool) (names : List Str) (python_root : FsPath) : List Import :=
  names.map (fun a =>
    let full_path := python_root ++ splitOnChar '.' a
    if is_dir full_path then Import.Package a else Import.Module a)

/-- Model of Import::from_import_from (src/main.rs lines 147-196). The
result is none when the ascent loop unwraps a missing parent, modelling the
panic that aborts the run. -/
def from_import_from (is_dir : FsPath → Bool) (level : Option Nat) (module : Option Str)
    (names : List Str) (current_file_path python_root : FsPath) : Option (List Import) :=
  match base_import_path level current_file_path python_root with
  | none => none
  | some base =>
    match module with
    | some m =>
      let full := base ++ splitOnChar '.' m
      if is_dir full then
        some (names.map (fun a =>
          let fp := full ++ [a]
          let fi := render_as_import_string (pathStr fp) (pathStr python_root)
          if is_dir fp then Import.Package fi else Import.Module fi))
      else
        some [Import.Module (render_as_import_string (pathStr full) (pathStr python_root))]
    | none =>
      some (names.map (fun a =>
        let fp := base ++ [a]
        let fi := render_as_import_string (pathStr fp) (pathStr python_root)
        if is_dir fp then Import.Package fi else Import.Module fi))

/-- Claim C5: relative level absent or 0 resolves against the project root;
level n > 0 ascends n times from the importing file; from
root/pkg/sub/mod.py, level 1 yields root/pkg/sub and level 2 yields
root/pkg. -/
theorem base_import_path_levels :
    (∀ file python_root : FsPath, base_import_path none file python_root = some python_root)
    ∧ (∀ file python_root : FsPath, base_import_path (some 0) file python_root = some python_root)
    ∧ (∀ (n : Nat) (file python_root : FsPath), 0 < n →
        base_import_path (some n) file python_root = ascend n file)
    ∧ base_import_path (some 1)
        ["root".toList, "pkg".toList, "sub".toList, "mod.py".toList] ["root".toList]
        = some ["root".toList, "pkg".toList, "sub".toList]
    ∧ base_import_path (some 2)
        ["root".toList, "pkg".toList, "sub".toList, "mod.py".toList] ["root".toList]
        = some ["root".toList, "pkg".toList] := by
  refine ⟨fun _ _ => rfl, fun _ _ => rfl, ?_, by decide, by decide⟩
  intro n file python_root hn
  match n, hn with
  | n + 1, _ => rfl

theorem base_import_path_levels_witness :
    (0 < 2)
    ∧ base_import_path (some 2) ["r".toList, "a".toList, "b.py".toList] ["r".toList]
      = ascend 2 ["r".toList, "a".toList, "b.py".toList] :=
  ⟨by decide, base_import_path_levels.2.2.1 2 ["r".toList, "a".toList, "b.py".toList] ["r".toList] (by decide)⟩

/-- Claim C4: from the file /a.py, a from-import at relative level 2 ascends
past the filesystem root; from_import_from evaluates to none, the model of
the unwrap panic that aborts the whole run, rather than a per-statement
InvalidRelativeImport failure. -/
theorem from_import_from_ascends_past_root :
    from_import_from (fun _ => false) (some 2) none ["x".toList] ["a.py".toList] ["r".toList] = none := by
  rfl

/-- Claim C1 counterexample: resolving the package with dotted name a does
not insert the string a.__init__ into the imported set. -/
theorem resolve_imports_package_not_dotted_init :
    resolve_imports [Import.Package "a".toList] ≠ ["a.__init__".toList] := by
  decide

/-- Claim C1 amended: for every resolved import classified as a Package with
dotted name d, the string inserted into the imported set is d followed
immediately by the initializer filename __init__.py, with no dot separator
and with the extension retained. -/
theorem resolve_imports_package_appends_init_file (imports : List Import) (d : Str)
    (h : Import.Package d ∈ imports) : (d ++ PYTHON_INIT_FILE) ∈ resolve_imports imports := by
  induction imports with
  | nil => cases h
  | cons i rest ih =>
    cases h with
    | head => simp [resolve_imports]
    | tail _ hmem => cases i <;> simp [resolve_imports, ih hmem]

theorem resolve_imports_package_appends_init_file_witness :
    (Import.Package "a".toList ∈ [Import.Package "a".toList])
    ∧ ("a".toList ++ PYTHON_INIT_FILE) ∈ resolve_imports [Import.Package "a".toList] :=
  ⟨by decide, resolve_imports_package_appends_init_file _ _ (by decide)⟩

/-- A raw import statement, as the external statement extractor produces it:
a plain import with its dotted names, or a from-import with its optional
relative level, optional source module and listed names. -/
inductive Stmt
  | imp (names : List Str)
  | impFrom (level : Option Nat) (module : Option Str) (names : List Str)

/-- The ImportVisitor dispatch (src/main.rs lines 240-253): a plain import
statement goes to from_import, a from-import to from_import_from. -/
def visit_stmt (is_dir : FsPath → Bool) (python_root current_file_path : FsPath) :
    Stmt → Option (List Import)
  | .imp names => some (from_import is_dir names python_root)
  | .impFrom level module names =>
      from_import_from is_dir level module names current_file_path python_root

/-- Model of extract_imports (src/main.rs lines 211-231). A file's contents
are modelled by their parse result: none when the external parser fails, in
which case the function yields the ParseError branch. The outer none models a
panic inside statement resolution aborting the run. -/
def extract_imports (is_dir : FsPath → Bool) (python_root current_file_path : FsPath)
    (parsed : Option (List Stmt)) : Option (Except Unit (List Import)) :=
  match parsed with
  | none => some (Except.error ())
  | some body =>
    match body.mapM (visit_stmt is_dir python_root current_file_path) with
    | none => none
    | some ls => some (Except.ok ls.flatten)

/-- Model of compile_imports (src/main.rs lines 107-123): every file's
extraction runs; a file whose extraction fails is simply skipped, its error
discarded, while the imports of the others are accumulated. -/
def compile_imports (is_dir : FsPath → Bool) (python_root : FsPath)
    (python_files : List (FsPath × Option (List Stmt))) : Option (List Import) :=
  match python_files with
  | [] => some []
  | f :: rest =>
    match compile_imports is_dir python_root rest with
    | none => none
    | some acc =>
      match extract_imports is_dir python_root f.1 f.2 with
      | none => none
      | some (Except.ok l) => some (l ++ acc)
      | some (Except.error _) => some acc

/-- Claim C9: a file whose contents fail to parse makes its own extraction
fail with the ParseError branch, contributes nothing to the import
accumulation, and the accumulation over the remaining files is exactly what
it would have been without that file. -/
theorem compile_imports_parse_failure_isolated (is_dir : FsPath → Bool)
    (python_root : FsPath) (pre post : List (FsPath × Option (List Stmt))) (p : FsPath) :
    extract_imports is_dir python_root p none = some (Except.error ())
    ∧ compile_imports is_dir python_root (pre ++ (p, none) :: post)
      = compile_imports is_dir python_root (pre ++ post) := by
  refine ⟨rfl, ?_⟩
  induction pre with
  | nil =>
    cases h : compile_imports is_dir python_root post <;>
      simp [compile_imports, h, extract_imports]
  | cons f pre ih =>
    simp only [List.cons_append, compile_imports, List.append_eq, ih]

/-- The whitespace character class of the regex escape in
file_contains_name_equals_main, restricted to ASCII. -/
def isWs (c : Char) : Bool :=
  c = ' ' || c = '\t' || c = '\n' || c = '\r' || c = '\x0b' || c = '\x0c'

/-- Drop leading whitespace characters: the deterministic reading of a
greedy whitespace repetition followed by a non-whitespace literal. -/
def dropWs : Str → Str
  | [] => []
  | c :: s => if isWs c then dropWs s else c :: s

/-- Does the executed-directly idiom of src/main.rs line 305 match at the
start of the string: the word if, one or more whitespace characters,
the dunder name, optional whitespace, two equals signs, optional whitespace,
a single or double quote, the dunder main, a single or double quote chosen
independently, and a colon. -/
def matchMainAt (s : Str) : Bool :=
  match dropPre "if".toList s with
  | none => false
  | some s1 =>
    match s1 with
    | [] => false
    | c :: s2 =>
      if isWs c then
        match dropPre "__name__".toList (dropWs s2) with
        | none => false
        | some s3 =>
          match dropPre "==".toList (dropWs s3) with
          | none => false
          | some s4 =>
            match dropWs s4 with
            | [] => false
            | q1 :: s5 =>
              if q1 = '"' || q1 = '\'' then
                match dropPre "__main__".toList s5 with
                | none => false
                | some s6 =>
                  match s6 with
                  | [] => false
                  | q2 :: s7 =>
                    if q2 = '"' || q2 = '\'' then
                      match s7 with
                      | [] => false
                      | c2 :: _ => c2 = ':'
                    else false
              else false
      else false

/-- Does the executed-directly idiom match anywhere in the line, as an
unanchored regex search does. -/
def lineHasMainIdiom : Str → Bool
  | [] => matchMainAt []
  | s@(_ :: t) => matchMainAt s || lineHasMainIdiom t

/-- Model of file_contains_name_equals_main (src/main.rs lines 304-323): the
searcher reports the file as an entrypoint exactly when some line matches the
executed-directly idiom. -/
def file_contains_name_equals_main (lines : List Str) : Bool :=
  lines.any lineHasMainIdiom

/-- A discovered file: its path in segment view together with its text
lines. -/
structure PyFile where
  path : FsPath
  lines : List Str
deriving DecidableEq

/-- Model of Path::file_name: the last path component, when any. -/
def file_name (p : FsPath) : Option Str := p.getLast?

/-- The package-initializer test of the candidate filter (src/main.rs lines
35-39): the file name is exactly PYTHON_INIT_FILE. -/
def is_init_name (p : FsPath) : Bool :=
  match file_name p with
  | some n => n = PYTHON_INIT_FILE
  | none => false

/-- Model of the candidate filter building no_entrypoint_paths (src/main.rs
lines 34-41): keep a file unless it is named as the package initializer or
its text contains the executed-directly idiom. -/
def no_entrypoint_paths (files : List PyFile) : List PyFile :=
  files.filter (fun f => !(is_init_name f.path) && !(file_contains_name_equals_main f.lines))

/-- Model of potentially_dead_modules (src/main.rs lines 48-50): the dotted
form of every non-entrypoint candidate. -/
def potentially_dead_modules (python_root : FsPath) (files : List PyFile) : List Str :=
  (no_entrypoint_paths files).map
    (fun f => render_as_import_string (pathStr f.path) (pathStr python_root))

/-- Model of the dead-file computation of main (src/main.rs lines 52-57):
keep the candidates whose dotted form is absent from the imported set, turn
each back into a relative file path, and sort. -/
def dead_files (python_root : FsPath) (files : List PyFile) (imports_hash_set : List Str) : List Str :=
  List.insertionSort (· ≤ ·)
    (((potentially_dead_modules python_root files).filter
        (fun m => ! imports_hash_set.contains m)).map
      (fun m => m.map (fun c => if c = '.' then SEP else c) ++ PYTHON_EXTENSION))

theorem render_no_sep (path python_root : Str) :
    SEP ∉ render_as_import_string path python_root := by
  unfold render_as_import_string
  intro h
  simp only [List.mem_map] at h
  obtain ⟨c, _, hc⟩ := h
  by_cases h' : c = SEP
  · rw [if_pos h'] at hc
    exact absurd hc (by decide)
  · rw [if_neg h'] at hc
    exact h' hc

theorem potentially_dead_no_sep (python_root : FsPath) (files : List PyFile) :
    ∀ m ∈ potentially_dead_modules python_root files, SEP ∉ m := by
  intro m hm
  simp only [potentially_dead_modules, List.mem_map] at hm
  obtain ⟨f, _, rfl⟩ := hm
  exact render_no_sep _ _

theorem dot_to_sep_inj {x y : Str} (hx : SEP ∉ x) (hy : SEP ∉ y)
    (h : x.map (fun c => if c = '.' then SEP else c) ++ PYTHON_EXTENSION
       = y.map (fun c => if c = '.' then SEP else c) ++ PYTHON_EXTENSION) : x = y := by
  have hlen : (x.map (fun c => if c = '.' then SEP else c)).length
      = (y.map (fun c => if c = '.' then SEP else c)).length := by
    have := congrArg List.length h
    simpa using this
  have hmaps := (List.append_inj h (by simpa using hlen)).1
  clear h hlen
  induction x generalizing y with
  | nil =>
    cases y with
    | nil => rfl
    | cons b y => simp at hmaps
  | cons a x ih =>
    cases y with
    | nil => simp at hmaps
    | cons b y =>
      simp only [List.map_cons, List.cons.injEq] at hmaps
      obtain ⟨hab, hrest⟩ := hmaps
      have hax : a ≠ SEP := fun hh => hx (hh ▸ List.mem_cons_self a x)
      have hbx : b ≠ SEP := fun hh => hy (hh ▸ List.mem_cons_self b y)
      have hxtail : SEP ∉ x := fun hh => hx (List.mem_cons_of_mem a hh)
      have hytail : SEP ∉ y := fun hh => hy (List.mem_cons_of_mem b hh)
      have hab' : a = b := by
        by_cases ha : a = '.' <;> by_cases hb : b = '.' <;>
          simp [ha, hb] at hab <;> first
          | exact ha.trans hb.symm
          | exact absurd hab.symm hbx
          | exact absurd hab hax
          | exact hab
      rw [hab', ih hxtail hytail hrest]

/-- Claim C8: a file is dropped from the candidate list exactly when its
name is the package-initializer filename or its text contains the
executed-directly idiom, and every string in the final dead-file list comes
from a file that is neither — so an entrypoint, in particular a package
initializer, is never reported dead. -/
theorem entrypoint_classification (files : List PyFile) (python_root : FsPath)
    (imports_hash_set : List Str) :
    (∀ f : PyFile, f ∈ no_entrypoint_paths files ↔
      f ∈ files ∧ ¬ (is_init_name f.path = true ∨ file_contains_name_equals_main f.lines = true))
    ∧ (∀ s ∈ dead_files python_root files imports_hash_set, ∃ f : PyFile,
        f ∈ files
        ∧ ¬ (is_init_name f.path = true ∨ file_contains_name_equals_main f.lines = true)
        ∧ s = (render_as_import_string (pathStr f.path) (pathStr python_root)).map
            (fun c => if c = '.' then SEP else c) ++ PYTHON_EXTENSION) := by
  have h1 : ∀ f : PyFile, f ∈ no_entrypoint_paths files ↔
      f ∈ files ∧ ¬ (is_init_name f.path = true ∨ file_contains_name_equals_main f.lines = true) := by
    intro f
    simp [no_entrypoint_paths, List.mem_filter, not_or]
  refine ⟨h1, ?_⟩
  intro s hs
  simp only [dead_files] at hs
  rw [List.Perm.mem_iff (List.perm_insertionSort _ _)] at hs
  simp only [List.mem_map, List.mem_filter] at hs
  obtain ⟨m, ⟨hm, _⟩, rfl⟩ := hs
  simp only [potentially_dead_modules, List.mem_map] at hm
  obtain ⟨f, hf, rfl⟩ := hm
  obtain ⟨hmem, hcls⟩ := (h1 f).mp hf
  exact ⟨f, hmem, hcls, rfl⟩

theorem entrypoint_classification_witness :
    ("a.py".toList ∈ dead_files ["r".toList] [⟨["r".toList, "a.py".toList], []⟩] [])
    ∧ ∃ f : PyFile,
        f ∈ [PyFile.mk ["r".toList, "a.py".toList] []]
        ∧ ¬ (is_init_name f.path = true ∨ file_contains_name_equals_main f.lines = true)
        ∧ "a.py".toList = (render_as_import_string (pathStr f.path) (pathStr ["r".toList])).map
            (fun c => if c = '.' then SEP else c) ++ PYTHON_EXTENSION :=
  ⟨by decide,
    (entrypoint_classification [⟨["r".toList, "a.py".toList], []⟩] ["r".toList] []).2
      "a.py".toList (by decide)⟩

/-- Claim C2 counterexample: when the enumeration hands the same candidate
file twice, the final dead-file list contains a duplicate. -/
theorem dead_files_duplicate_counterexample :
    ¬ (dead_files ["r".toList]
        [⟨["r".toList, "a.py".toList], []⟩, ⟨["r".toList, "a.py".toList], []⟩] []).Nodup := by
  decide

/-- Claim C2 amended: the final dead-file list is sorted lexicographically by
rendered relative path; it is additionally duplicate-free whenever the
rendered module strings of the enumerated candidates are pairwise distinct —
the code performs no deduplication, so a duplicated enumeration yields
duplicated output. -/
theorem dead_files_sorted_and_conditionally_nodup (python_root : FsPath)
    (files : List PyFile) (imports_hash_set : List Str) :
    List.Sorted (· ≤ ·) (dead_files python_root files imports_hash_set)
    ∧ ((potentially_dead_modules python_root files).Nodup →
        (dead_files python_root files imports_hash_set).Nodup) := by
  constructor
  · exact List.sorted_insertionSort _ _
  · intro hnd
    simp only [dead_files]
    rw [List.Perm.nodup_iff (List.perm_insertionSort _ _)]
    apply List.Nodup.map_on
    · intro x hx y hy hxy
      have hx' := potentially_dead_no_sep python_root files x (List.mem_of_mem_filter hx)
      have hy' := potentially_dead_no_sep python_root files y (List.mem_of_mem_filter hy)
      exact dot_to_sep_inj hx' hy' hxy
    · exact hnd.filter _

theorem dead_files_sorted_and_conditionally_nodup_witness :
    (potentially_dead_modules ["r".toList] [⟨["r".toList, "a.py".toList], []⟩]).Nodup
    ∧ (dead_files ["r".toList] [⟨["r".toList, "a.py".toList], []⟩] []).Nodup :=
  ⟨by decide,
    (dead_files_sorted_and_conditionally_nodup ["r".toList]
      [⟨["r".toList, "a.py".toList], []⟩] []).2 (by decide)⟩

/-- The Printable enum of src/printer.rs lines 7-13. Stats carries the two
counts and the already-formatted elapsed duration; DeadFile carries the
relative representation and the absolute path. -/
inductive Printable
  | Message (msg : Str)
  | Error (err : Str)
  | Stats (dead_count scanned_count : Nat) (duration : Str)
  | DeadFile (repr full_path : Str)
  | Separator

/-- The Debug rendering of the Stats struct, as the non-terminal branch
prints it, with fields in declaration order. -/
def statsDebugStr (dead_count scanned_count : Nat) (duration : Str) : Str :=
  "Stats \x7b dead_files: ".toList ++ (Nat.repr dead_count).toList
    ++ ", scanned_files: ".toList ++ (Nat.repr scanned_count).toList
    ++ ", duration: ".toList ++ duration ++ " \x7d".toList

/-- DEFAULT_SEPARATOR repeated DEFAULT_SEPARATOR_SIZE times (src/printer.rs
lines 15-16). -/
def separatorStr : Str := List.replicate 80 '-'

/-- Model of Printer::print in the non-terminal branch (src/printer.rs lines
22-36): the stdout lines each printable produces. An error goes to stderr
and contributes no stdout line; the separator is printed with a blank line
on each side; stats are printed with the Debug formatter. -/
def print_non_terminal : Printable → List Str
  | .Message msg => [msg]
  | .Error _ => []
  | .Stats d s dur => [statsDebugStr d s dur]
  | .DeadFile r _ => [r]
  | .Separator => [[], separatorStr, []]

/-- The print sequence of main (src/main.rs lines 59-79) in the non-terminal
branch: a separator, one DeadFile per dead entry, a separator, then the
stats. -/
def main_output (python_root : Str) (dead_list : List Str) (scanned_count : Nat)
    (duration : Str) : List Str :=
  print_non_terminal Printable.Separator
    ++ dead_list.flatMap
        (fun df => print_non_terminal (Printable.DeadFile df (python_root ++ [SEP] ++ df)))
    ++ print_non_terminal Printable.Separator
    ++ print_non_terminal (Printable.Stats dead_list.length scanned_count duration)

theorem main_output_eq (python_root : Str) (dead_list : List Str) (scanned_count : Nat)
    (duration : Str) :
    main_output python_root dead_list scanned_count duration
      = (([[], separatorStr, []] : List Str) ++ dead_list ++ [[], separatorStr, []])
        ++ [statsDebugStr dead_list.length scanned_count duration] := by
  have hfm : dead_list.flatMap (fun df => [df]) = dead_list := by
    induction dead_list with
    | nil => rfl
    | cons a l ih => simp [List.flatMap_cons, ih]
  simp [main_output, print_non_terminal, hfm]

/-- Claim C3 counterexample: with a single dead file, the non-terminal
output is not the single bare path line — separator lines and a stats line
are printed as well. -/
theorem non_terminal_output_not_bare :
    main_output "/r".toList ["a.py".toList] 1 "1s".toList ≠ ["a.py".toList] := by
  decide

/-- Claim C3 amended: when standard input is not a terminal (the code probes
stdin, not the output destination), each dead file is printed as its bare
relative path with no color or hyperlink, but a separator block — a blank
line, eighty dashes, a blank line — still brackets the list, and a
debug-formatted stats line still follows it. -/
theorem non_terminal_output_shape (python_root : Str) (dead_list : List Str)
    (scanned_count : Nat) (duration : Str) :
    main_output python_root dead_list scanned_count duration
      = (([[], separatorStr, []] : List Str) ++ dead_list ++ [[], separatorStr, []])
        ++ [statsDebugStr dead_list.length scanned_count duration] :=
  main_output_eq python_root dead_list scanned_count duration

/-- Claim C6 counterexample: two runs over the same unmodified tree that
differ only in elapsed wall time produce different output, because the
stats line embeds the measured duration. -/
theorem output_depends_on_duration :
    main_output "/r".toList ["a.py".toList] 1 "1s".toList
      ≠ main_output "/r".toList ["a.py".toList] 1 "2s".toList := by
  decide

/-- Claim C6 amended: everything before the final stats line is determined
by the tree alone — two runs that differ only in their elapsed duration
produce identical output up to, but not including, the last line. -/
theorem output_deterministic_except_duration (python_root : Str) (dead_list : List Str)
    (scanned_count : Nat) (d1 d2 : Str) :
    (main_output python_root dead_list scanned_count d1).dropLast
      = (main_output python_root dead_list scanned_count d2).dropLast := by
  rw [main_output_eq, main_output_eq, List.dropLast_concat, List.dropLast_concat]

end Undead
